import Mathlib

set_option autoImplicit false

namespace Typedmongo

/-!
Shallow embedding of the typedmongo schema/expression core
(`typedmongo/expressions.py`, `typedmongo/fields.py`, `typedmongo/table.py`,
`typedmongo/marshamallow.py`), together with proofs about the behaviour the
specification ascribes to it.
-/

/-- Nested filter data produced by `compile_expression` (a Python
`dict[str, Any]` whose leaves are the literal operands). -/
inductive MValue where
  | int (n : Int)
  | str (s : String)
  | obj (entries : List (String × MValue))
  | arr (items : List MValue)

/-- Python exception kinds raised by the embedded operations. -/
inductive PyErr where
  | notImplemented
  | keyError (key : String)
  | attributeError (obj attr : String)
  | initializeFirst (cls : String)
  deriving DecidableEq, Repr

/-- A `CompareExpression`: the compared field reference (identified by its
`field_name`), the operator token, and the literal operand.  The payload of a
`NotExpression` is declared in the source as exactly such a node. -/
structure CompareE where
  field : String
  op : String
  arg : MValue

/-- The expression tree of `typedmongo.expressions`: `RawExpression`,
`CompareExpression`, `CombineExpression` and `NotExpression`.  Operator
tokens are kept as runtime strings, as in the Python values. -/
inductive Expression where
  | raw (payload : MValue)
  | compare (c : CompareE)
  | combine (op : String) (left right : Expression)
  | notE (inner : CompareE)

/-- The `CompareExpression` cases of `compile_expression`, in source order. -/
def compileCompare (c : CompareE) : Except PyErr MValue :=
  if c.op = "==" then .ok (.obj [(c.field, c.arg)])
  else if c.op = "!=" then .ok (.obj [(c.field, .obj [("$ne", c.arg)])])
  else if c.op = ">" then .ok (.obj [(c.field, .obj [("$gt", c.arg)])])
  else if c.op = ">=" then .ok (.obj [(c.field, .obj [("$gte", c.arg)])])
  else if c.op = "<" then .ok (.obj [(c.field, .obj [("$lt", c.arg)])])
  else if c.op = "<=" then .ok (.obj [(c.field, .obj [("$lte", c.arg)])])
  else .error .notImplemented

/-- Python `dict.pop(key)` on a compiled filter object: the value stored at
`key`, or a `KeyError` when the key is absent or the value is not a dict. -/
def objPop (v : MValue) (key : String) : Except PyErr MValue :=
  match v with
  | .obj entries =>
    match entries.lookup key with
    | some x => .ok x
    | none => .error (.keyError key)
  | _ => .error (.keyError key)

/-- `compile_expression` (`expressions.py`): `Raw` passes its payload through;
comparisons map through the fixed operator table; `AND`/`OR` combine the two
compiled children; `Not(inner)` compiles the inner comparison and re-wraps the
payload found under the inner path key under `$not`; anything else raises
`NotImplementedError`. -/
def compile_expression : Expression → Except PyErr MValue
  | .raw payload => .ok payload
  | .compare c => compileCompare c
  | .combine op l r =>
    if op = "AND" then do
      let cl ← compile_expression l
      let cr ← compile_expression r
      .ok (.obj [("$and", .arr [cl, cr])])
    else if op = "OR" then do
      let cl ← compile_expression l
      let cr ← compile_expression r
      .ok (.obj [("$or", .arr [cl, cr])])
    else .error .notImplemented
  | .notE c => do
    let inner ← compileCompare c
    let payload ← objPop inner c.field
    .ok (.obj [(c.field, .obj [("$not", payload)])])

/-- `Expression.__invert__`: unwrap a `Not`, push negation through `AND`/`OR`
De-Morgan style, wrap a comparison in `Not`, and raise `NotImplementedError`
for every other node. -/
def invert : Expression → Except PyErr Expression
  | .notE c => .ok (.compare c)
  | .combine op l r =>
    if op = "AND" then do
      let il ← invert l
      let ir ← invert r
      .ok (.combine "OR" il ir)
    else if op = "OR" then do
      let il ← invert l
      let ir ← invert r
      .ok (.combine "AND" il ir)
    else .error .notImplemented
  | .compare c => .ok (.notE c)
  | .raw _ => .error .notImplemented

/-- `Expression.__and__`: `self & None` returns `self` unchanged, otherwise a
`Combine("AND", self, other)` node. -/
def andE (self : Expression) : Option Expression → Expression
  | none => self
  | some other => .combine "AND" self other

/-- `Expression.__rand__`: `None & self` returns `self` unchanged. -/
def randE (self : Expression) : Option Expression → Expression
  | none => self
  | some other => .combine "AND" other self

/-- `Expression.__or__`. -/
def orE (self : Expression) : Option Expression → Expression
  | none => self
  | some other => .combine "OR" self other

/-- `Expression.__ror__`. -/
def rorE (self : Expression) : Option Expression → Expression
  | none => self
  | some other => .combine "OR" other self

/-- Reduction of `Except` bind on a success value. -/
theorem exceptBind_ok {ε α β : Type} (a : α) (f : α → Except ε β) :
    (Except.ok a >>= f : Except ε β) = f a := rfl

/-- Reduction of `Except` bind on an error value. -/
theorem exceptBind_error {ε α β : Type} (e : ε) (f : α → Except ε β) :
    (Except.error e >>= f : Except ε β) = .error e := rfl

/-- C1: expression compilation is a pure structural transform: `Raw` returns
its payload unchanged; `==` compiles to `{path: literal}`; `!=`, `>`, `>=`,
`<`, `<=` compile to `{path: {op: literal}}` with the fixed `$ne`/`$gt`/
`$gte`/`$lt`/`$lte` table; `AND`/`OR` compile to `{$and|$or: [left, right]}`;
`Not(inner)` compiles to `{path: {$not: payload}}` where `payload` is the
inner comparison's compiled value with its single path key unwrapped; any
other operator token fails with the `NotImplementedError` error kind. -/
theorem C1_compile_structural :
    (∀ p, compile_expression (.raw p) = .ok p) ∧
    (∀ f a, compile_expression (.compare ⟨f, "==", a⟩) = .ok (.obj [(f, a)])) ∧
    (∀ f a, compile_expression (.compare ⟨f, "!=", a⟩) =
      .ok (.obj [(f, .obj [("$ne", a)])])) ∧
    (∀ f a, compile_expression (.compare ⟨f, ">", a⟩) =
      .ok (.obj [(f, .obj [("$gt", a)])])) ∧
    (∀ f a, compile_expression (.compare ⟨f, ">=", a⟩) =
      .ok (.obj [(f, .obj [("$gte", a)])])) ∧
    (∀ f a, compile_expression (.compare ⟨f, "<", a⟩) =
      .ok (.obj [(f, .obj [("$lt", a)])])) ∧
    (∀ f a, compile_expression (.compare ⟨f, "<=", a⟩) =
      .ok (.obj [(f, .obj [("$lte", a)])])) ∧
    (∀ l r, compile_expression (.combine "AND" l r) = do
      let cl ← compile_expression l
      let cr ← compile_expression r
      .ok (.obj [("$and", .arr [cl, cr])])) ∧
    (∀ l r, compile_expression (.combine "OR" l r) = do
      let cl ← compile_expression l
      let cr ← compile_expression r
      .ok (.obj [("$or", .arr [cl, cr])])) ∧
    (∀ c payload, compileCompare c = .ok (.obj [(c.field, payload)]) →
      compile_expression (.notE c) = .ok (.obj [(c.field, .obj [("$not", payload)])])) ∧
    (∀ f op a, op ∉ (["==", "!=", ">", ">=", "<", "<="] : List String) →
      compile_expression (.compare ⟨f, op, a⟩) = .error .notImplemented) ∧
    (∀ op l r, op ∉ (["AND", "OR"] : List String) →
      compile_expression (.combine op l r) = .error .notImplemented) ∧
    (∀ f op a, op ∉ (["==", "!=", ">", ">=", "<", "<="] : List String) →
      compile_expression (.notE ⟨f, op, a⟩) = .error .notImplemented) := by
  refine ⟨fun p => rfl, fun f a => rfl, fun f a => rfl, fun f a => rfl, fun f a => rfl,
    fun f a => rfl, fun f a => rfl, fun l r => rfl, fun l r => rfl, ?_, ?_, ?_, ?_⟩
  · intro c payload h
    simp [compile_expression, h, exceptBind_ok, objPop, List.lookup]
  · intro f op a h
    simp only [List.mem_cons, List.not_mem_nil, or_false, not_or] at h
    obtain ⟨h1, h2, h3, h4, h5, h6⟩ := h
    simp [compile_expression, compileCompare, h1, h2, h3, h4, h5, h6]
  · intro op l r h
    simp only [List.mem_cons, List.not_mem_nil, or_false, not_or] at h
    obtain ⟨h1, h2⟩ := h
    simp [compile_expression, h1, h2]
  · intro f op a h
    simp only [List.mem_cons, List.not_mem_nil, or_false, not_or] at h
    obtain ⟨h1, h2, h3, h4, h5, h6⟩ := h
    simp [compile_expression, compileCompare, h1, h2, h3, h4, h5, h6,
      exceptBind_error]

/-- Witness for C1, instantiated at the spec's own scenarios:
`compile(age >= 18)`, `compile((name == "A") & (age < 35))`,
`compile(~(age > 18))`, plus an unsupported operator token. -/
theorem C1_compile_structural_witness :
    compile_expression (.compare ⟨"age", ">=", .int 18⟩) =
      .ok (.obj [("age", .obj [("$gte", .int 18)])]) ∧
    compile_expression
        (.combine "AND" (.compare ⟨"name", "==", .str "A"⟩) (.compare ⟨"age", "<", .int 35⟩)) =
      .ok (.obj [("$and", .arr [.obj [("name", .str "A")],
        .obj [("age", .obj [("$lt", .int 35)])]])]) ∧
    compile_expression (.notE ⟨"age", ">", .int 18⟩) =
      .ok (.obj [("age", .obj [("$not", .obj [("$gt", .int 18)])])]) ∧
    compile_expression (.compare ⟨"age", "<>", .int 18⟩) = .error .notImplemented ∧
    compile_expression (.combine "XOR" (.raw (.obj [])) (.raw (.obj []))) =
      .error .notImplemented := by
  obtain ⟨h1, h2, h3, h4, h5, h6, h7, h8, h9, h10, h11, h12, h13⟩ := C1_compile_structural
  refine ⟨h5 "age" (.int 18), ?_, ?_, ?_, ?_⟩
  · rw [h8]
    rw [h2 "name" (.str "A"), h6 "age" (.int 35)]
    rfl
  · exact h10 ⟨"age", ">", .int 18⟩ (.obj [("$gt", .int 18)]) rfl
  · exact h11 "age" "<>" (.int 18) (by decide)
  · exact h12 "XOR" (.raw (.obj [])) (.raw (.obj [])) (by decide)

/-- C2: negation distributes structurally over boolean combination and double
negation cancels structurally: for `Compare` nodes `a`, `b`, `~(a & b)` is
`(~a) | (~b)`, `~(a | b)` is `(~a) & (~b)`, and inverting twice returns
exactly the original `Compare` node. -/
theorem C2_negation_laws (a b : CompareE) :
    invert (andE (.compare a) (some (.compare b))) =
      .ok (orE (.notE a) (some (.notE b))) ∧
    invert (orE (.compare a) (some (.compare b))) =
      .ok (andE (.notE a) (some (.notE b))) ∧
    invert (.compare a) = .ok (.notE a) ∧
    invert (.notE a) = .ok (.compare a) ∧
    (invert (.compare a) >>= invert) = .ok (.compare a) := by
  exact ⟨rfl, rfl, rfl, rfl, rfl⟩

/-- C3: the absent operand (`None`) is a two-sided identity for `&` and `|`:
the other operand is returned itself, never wrapped in a `Combine` node. -/
theorem C3_none_identity (e : Expression) :
    andE e none = e ∧ randE e none = e ∧ orE e none = e ∧ rorE e none = e :=
  ⟨rfl, rfl, rfl, rfl⟩

/-- A resolved `Field` as seen through a schema's `__fields__` table: only its
bound storage key `field_name` matters for path composition. -/
structure FieldM where
  field_name : String
  deriving DecidableEq, Repr

/-- A resolved schema class: its name (used in `AttributeError` messages) and
its ordered `__fields__` table. -/
structure SchemaTy where
  name : String
  fields : List (String × FieldM)
  deriving DecidableEq, Repr

/-- Lookup `self.t.__fields__[name]`. -/
def SchemaTy.lookupField (t : SchemaTy) (name : String) : Option FieldM :=
  t.fields.lookup name

/-- `FieldNameProxy` (`fields.py`): a prefix path (the embedded field's
`field_name`) together with the referenced schema. -/
structure FieldNameProxy where
  prefixName : String
  t : SchemaTy

/-- `FieldNameProxy.__getattr__`: compose `prefix.field_name` with the looked
up nested field's `field_name`, or fail with an `AttributeError` naming the
referenced schema and the missing attribute. -/
def FieldNameProxy.getattr (p : FieldNameProxy) (name : String) : Except PyErr String :=
  match p.t.lookupField name with
  | some fld => .ok (p.prefixName ++ "." ++ fld.field_name)
  | none => .error (.attributeError p.t.name name)

/-- `ListFieldNameProxy` (`fields.py`): an optional element index, the list
field's prefix path, and the referenced element schema. -/
structure ListFieldNameProxy where
  number : Option Int
  prefixName : String
  t : SchemaTy

/-- `ListFieldNameProxy.field_name`: the prefix alone when no index is pinned,
otherwise `prefix.index`. -/
def ListFieldNameProxy.field_name (p : ListFieldNameProxy) : String :=
  match p.number with
  | none => p.prefixName
  | some n => p.prefixName ++ "." ++ toString n

/-- `ListFieldNameProxy.__getattr__`: compose this proxy's `field_name` with
the looked up nested field's `field_name`, or fail with an `AttributeError`
naming the referenced schema and the missing attribute. -/
def ListFieldNameProxy.getattr (p : ListFieldNameProxy) (name : String) : Except PyErr String :=
  match p.t.lookupField name with
  | some fld => .ok (p.field_name ++ "." ++ fld.field_name)
  | none => .error (.attributeError p.t.name name)

/-- `EmbeddedField.__post_init__` sets `self._ = FieldNameProxy(self, self.schema)`:
the proxy obtained from `Schema.embedded._`. -/
def embeddedUnderscore (field_name : String) (schema : SchemaTy) : FieldNameProxy :=
  ⟨field_name, schema⟩

/-- `ListField.__post_init__` sets `self._ = ListFieldNameProxy(None, self, ...)`:
the no-index proxy obtained from `Schema.list_field._`. -/
def listUnderscore (field_name : String) (elem : SchemaTy) : ListFieldNameProxy :=
  ⟨none, field_name, elem⟩

/-- `ListField.__getitem__(index)` returns `ListFieldNameProxy(index, self, ...)`:
the proxy obtained from `Schema.list_field[index]`. -/
def listGetitem (field_name : String) (elem : SchemaTy) (index : Int) : ListFieldNameProxy :=
  ⟨some index, field_name, elem⟩

/-- C4: field-path proxies compose dotted storage paths — `embedded._.attr`
yields `"embedded.attr"`, `list_field[i].attr` yields `"list_field.i.attr"`,
and the no-index proxy `list_field._.attr` yields `"list_field.attr"` with no
numeric segment; looking up a name missing from the referenced schema's
resolved field table fails with an `AttributeError` naming the referenced
schema and the missing attribute. -/
theorem C4_path_proxies (t : SchemaTy) (en ln attr : String) (i : Int) (fld : FieldM) :
    (t.lookupField attr = some fld →
      (embeddedUnderscore en t).getattr attr = .ok (en ++ "." ++ fld.field_name) ∧
      (listGetitem ln t i).getattr attr =
        .ok (ln ++ "." ++ toString i ++ "." ++ fld.field_name) ∧
      (listUnderscore ln t).getattr attr = .ok (ln ++ "." ++ fld.field_name)) ∧
    (t.lookupField attr = none →
      (embeddedUnderscore en t).getattr attr = .error (.attributeError t.name attr) ∧
      (listGetitem ln t i).getattr attr = .error (.attributeError t.name attr) ∧
      (listUnderscore ln t).getattr attr = .error (.attributeError t.name attr)) := by
  constructor
  · intro h
    refine ⟨?_, ?_, ?_⟩ <;>
      simp [FieldNameProxy.getattr, ListFieldNameProxy.getattr,
        ListFieldNameProxy.field_name, embeddedUnderscore, listUnderscore,
        listGetitem, h, String.append_assoc]
  · intro h
    refine ⟨?_, ?_, ?_⟩ <;>
      simp [FieldNameProxy.getattr, ListFieldNameProxy.getattr,
        embeddedUnderscore, listUnderscore, listGetitem, h]

/-- Witness for C4 at the spec's concrete scenario: a schema with a single
`scalar` field, reached through `embedded._`, `list_field[2]` and
`list_field._`, plus a missing attribute. -/
theorem C4_path_proxies_witness :
    (embeddedUnderscore "embedded" ⟨"Schema", [("scalar", ⟨"scalar"⟩)]⟩).getattr "scalar" =
      .ok "embedded.scalar" ∧
    (listGetitem "list_field" ⟨"Schema", [("scalar", ⟨"scalar"⟩)]⟩ 2).getattr "scalar" =
      .ok "list_field.2.scalar" ∧
    (listUnderscore "list_field" ⟨"Schema", [("scalar", ⟨"scalar"⟩)]⟩).getattr "scalar" =
      .ok "list_field.scalar" ∧
    (embeddedUnderscore "embedded" ⟨"Schema", [("scalar", ⟨"scalar"⟩)]⟩).getattr "missing" =
      .error (.attributeError "Schema" "missing") := by
  have h1 := (C4_path_proxies ⟨"Schema", [("scalar", ⟨"scalar"⟩)]⟩ "embedded"
    "list_field" "scalar" 2 ⟨"scalar"⟩).1 rfl
  have h2 := (C4_path_proxies ⟨"Schema", [("scalar", ⟨"scalar"⟩)]⟩ "embedded"
    "list_field" "missing" 2 ⟨"scalar"⟩).2 rfl
  exact ⟨h1.1, h1.2.1, h1.2.2, h2.1⟩

/-- Runtime Python types relevant to union dispatch (`type(value)` and the
candidates' `field_type`). -/
inductive PyType where
  | tInt
  | tStr
  | tBool
  | tDict
  | tDoc (name : String)
  deriving DecidableEq, Repr

/-- Runtime Python values fed to `MarshamallowUnion._deserialize`: primitives,
a plain input dict, or an already-loaded document instance. -/
inductive PyVal where
  | vInt (n : Int)
  | vStr (s : String)
  | vBool (b : Bool)
  | vObj (entries : List (String × String))
  | vDoc (schema : String) (entries : List (String × String))
  deriving DecidableEq, Repr

/-- Python `type(value)`. -/
def PyVal.typeOf : PyVal → PyType
  | .vInt _ => .tInt
  | .vStr _ => .tStr
  | .vBool _ => .tBool
  | .vObj _ => .tDict
  | .vDoc s _ => .tDoc s

/-- One candidate field of a `MarshamallowUnion`: its native `field_type`, its
`marshamallow.deserialize` validation step, and its own `load`.  A
`ValidationError` is modelled by its message. -/
structure Candidate where
  field_type : PyType
  deserialize : PyVal → Except String PyVal
  load : PyVal → Except String PyVal

/-- One attempt of the union loader:
`candidate_field.load(candidate_field.marshamallow.deserialize(value, ...))`. -/
def tryCandidate (c : Candidate) (v : PyVal) : Except String PyVal := do
  let d ← c.deserialize v
  c.load d

/-- Lookup in `self._candidate_fields_map`, the dict comprehension
`{field.field_type: field for field in fields}`: a later candidate with the
same `field_type` overrides an earlier one, so the lookup finds the last
matching candidate. -/
def candidateMap (cs : List Candidate) (t : PyType) : Option Candidate :=
  cs.reverse.find? (fun c => c.field_type == t)

/-- Error raised by `MarshamallowUnion._deserialize`: either a propagated
single candidate failure (type-dispatch fast path) or the aggregated
`ValidationError(message=errors)` after every candidate failed. -/
inductive UnionErr where
  | single (msg : String)
  | aggregated (msgs : List String)
  deriving DecidableEq, Repr

/-- The fallback loop of `MarshamallowUnion._deserialize`: try candidates in
declaration order, accumulate each `ValidationError` message, succeed on the
first accepting candidate, and raise the aggregated error at the end. -/
def unionGo (v : PyVal) : List Candidate → List String → Except UnionErr PyVal
  | [], errors => .error (.aggregated errors)
  | c :: rest, errors =>
    match tryCandidate c v with
    | .ok r => .ok r
    | .error m => unionGo v rest (errors ++ [m])

/-- `MarshamallowUnion._deserialize`: dispatch by `type(value)` through the
candidate map when it hits (errors of that single candidate propagate
unaggregated), otherwise run the ordered fallback loop. -/
def unionDeserialize (cs : List Candidate) (v : PyVal) : Except UnionErr PyVal :=
  match candidateMap cs v.typeOf with
  | some c => (tryCandidate c v).mapError .single
  | none => unionGo v cs []

/-- The per-candidate error messages of the fallback loop, defined only when
every candidate fails. -/
def candidateErrors : List Candidate → PyVal → Option (List String)
  | [], _ => some []
  | c :: rest, v =>
    match tryCandidate c v with
    | .ok _ => none
    | .error m => (candidateErrors rest v).map (fun ms => m :: ms)

/-- When every candidate fails, the loop raises the aggregated error carrying
all accumulated messages. -/
theorem unionGo_all_fail (v : PyVal) :
    ∀ (cs : List Candidate) (msgs errs : List String),
      candidateErrors cs v = some msgs →
      unionGo v cs errs = .error (.aggregated (errs ++ msgs)) := by
  intro cs
  induction cs with
  | nil =>
    intro msgs errs h
    simp only [candidateErrors, Option.some.injEq] at h
    simp [unionGo, ← h]
  | cons c rest ih =>
    intro msgs errs h
    simp only [candidateErrors] at h
    cases htry : tryCandidate c v with
    | ok r => rw [htry] at h; simp at h
    | error m =>
      rw [htry] at h
      cases hrest : candidateErrors rest v with
      | none => rw [hrest] at h; simp at h
      | some ms =>
        rw [hrest] at h
        simp only [Option.map_some', Option.some.injEq] at h
        subst h
        simp only [unionGo, htry]
        rw [ih ms (errs ++ [m]) hrest]
        simp

/-- When all candidates before `c` fail and `c` accepts the value, the loop
returns `c`'s result. -/
theorem unionGo_first_ok (v : PyVal) (c : Candidate) (post : List Candidate) (r : PyVal) :
    ∀ (pre : List Candidate) (errs : List String),
      (∀ c' ∈ pre, (tryCandidate c' v).isOk = false) →
      tryCandidate c v = .ok r →
      unionGo v (pre ++ c :: post) errs = .ok r := by
  intro pre
  induction pre with
  | nil =>
    intro errs _ hc
    simp [unionGo, hc]
  | cons c' pre' ih =>
    intro errs hfail hc
    have hc' : (tryCandidate c' v).isOk = false := hfail c' (by simp)
    cases htry : tryCandidate c' v with
    | ok _ => rw [htry] at hc'; simp [Except.isOk, Except.toBool] at hc'
    | error m =>
      simp only [List.cons_append, unionGo, htry]
      exact ih (errs ++ [m]) (fun x hx => hfail x (by simp [hx])) hc

/-- C5: union load dispatch — when `type(value)` hits the candidate map, that
candidate alone loads the value (its failure propagating as a single error);
otherwise candidates are tried in declaration order and the first accepting
candidate determines the result; when every candidate fails, the load fails
with a `ValidationError` aggregating every candidate's failure message in
order. -/
theorem C5_union_dispatch :
    (∀ (cs : List Candidate) (v : PyVal) (c : Candidate),
      candidateMap cs v.typeOf = some c →
      unionDeserialize cs v = (tryCandidate c v).mapError .single) ∧
    (∀ (v : PyVal) (pre : List Candidate) (c : Candidate) (post : List Candidate) (r : PyVal),
      candidateMap (pre ++ c :: post) v.typeOf = none →
      (∀ c' ∈ pre, (tryCandidate c' v).isOk = false) →
      tryCandidate c v = .ok r →
      unionDeserialize (pre ++ c :: post) v = .ok r) ∧
    (∀ (v : PyVal) (cs : List Candidate) (msgs : List String),
      candidateMap cs v.typeOf = none →
      candidateErrors cs v = some msgs →
      unionDeserialize cs v = .error (.aggregated msgs)) := by
  refine ⟨?_, ?_, ?_⟩
  · intro cs v c h
    simp [unionDeserialize, h]
  · intro v pre c post r hmap hfail hc
    simp only [unionDeserialize, hmap]
    exact unionGo_first_ok v c post r pre [] hfail hc
  · intro v cs msgs hmap herr
    simp only [unionDeserialize, hmap]
    have := unionGo_all_fail v cs msgs [] herr
    simpa using this

/-- An integer candidate (`IntegerField`): `fields.Integer` accepts an `int`
and the base `Field.load` returns the value unchanged. -/
def intCandidate : Candidate :=
  ⟨.tInt,
   fun v => match v with
     | .vInt n => .ok (.vInt n)
     | _ => .error "Not a valid integer.",
   fun v => .ok v⟩

/-- A string candidate (`StringField`). -/
def strCandidate : Candidate :=
  ⟨.tStr,
   fun v => match v with
     | .vStr s => .ok (.vStr s)
     | _ => .error "Not a valid string.",
   fun v => .ok v⟩

/-- An embedded-schema candidate validating `role == "admin"` and loading the
dict into an `R0` instance (the spec's tagged-union scenario). -/
def r0Candidate : Candidate :=
  ⟨.tDoc "R0",
   fun v => match v with
     | .vObj entries =>
       if entries.lookup "role" = some "admin" then .ok v
       else .error "Value must be admin."
     | _ => .error "Invalid input type.",
   fun v => match v with
     | .vObj entries => .ok (.vDoc "R0" entries)
     | _ => .error "Invalid input type."⟩

/-- An embedded-schema candidate validating `role == "user"` and loading the
dict into an `R1` instance. -/
def r1Candidate : Candidate :=
  ⟨.tDoc "R1",
   fun v => match v with
     | .vObj entries =>
       if entries.lookup "role" = some "user" then .ok v
       else .error "Value must be user."
     | _ => .error "Invalid input type.",
   fun v => match v with
     | .vObj entries => .ok (.vDoc "R1" entries)
     | _ => .error "Invalid input type."⟩

/-- Witness for C5: an `int` input short-circuits to the integer candidate; a
dict with `role: "user"` falls through `R0` to `R1` in declaration order; a
`bool` input against `int | str` fails with both messages aggregated. -/
theorem C5_union_dispatch_witness :
    unionDeserialize [intCandidate, strCandidate] (.vInt 1) = .ok (.vInt 1) ∧
    unionDeserialize [r0Candidate, r1Candidate] (.vObj [("role", "user")]) =
      .ok (.vDoc "R1" [("role", "user")]) ∧
    unionDeserialize [intCandidate, strCandidate] (.vBool true) =
      .error (.aggregated ["Not a valid integer.", "Not a valid string."]) := by
  obtain ⟨h1, h2, h3⟩ := C5_union_dispatch
  refine ⟨?_, ?_, ?_⟩
  · rw [h1 [intCandidate, strCandidate] (.vInt 1) intCandidate rfl]
    rfl
  · exact h2 (.vObj [("role", "user")]) [r0Candidate] r1Candidate []
      (.vDoc "R1" [("role", "user")]) rfl
      (by intro c' hc'; simp only [List.mem_singleton] at hc'; subst hc'; rfl) rfl
  · exact h3 (.vBool true) [intCandidate, strCandidate]
      ["Not a valid integer.", "Not a valid string."] rfl rfl

/-- Stored field values.  `alloc id` stands for a freshly produced object: a
zero-argument default producer (such as `list` or a `lambda`) is modelled as
returning a fresh allocation identifier on each call, so two calls never
produce the same value. -/
inductive Val where
  | vint (n : Int)
  | vstr (s : String)
  | vnone
  | alloc (id : Nat)
  deriving DecidableEq, Repr

/-- A field's `default` as set in `fields.py`: a plain value or a
zero-argument callable producer.  Python `default=None` means no default and
is modelled as `Option.none` around this type. -/
inductive DefaultSpec where
  | value (v : Val)
  | factory
  deriving DecidableEq, Repr

/-- Apply a default at allocation counter `c`: a plain value is returned as
is, a callable producer is invoked and yields a fresh object, advancing the
counter (`if callable(default_value): value = default_value()`). -/
def applyDefault : DefaultSpec → Nat → Val × Nat
  | .value v, c => (v, c)
  | .factory, c => (.alloc c, c + 1)

/-- One declared field as `Document.load` / `Document.__init__` see it: its
name and its optional default.  The base scalar `Field.load` and its plain
`marshamallow` field are identity transforms, so they carry no extra data. -/
structure FieldSpec where
  name : String
  default : Option DefaultSpec
  deriving DecidableEq, Repr

/-- Errors surfacing from the load pipeline: the marshmallow
"Missing data for required field." `ValidationError`, and the `TypeError` of
`Document.__init__` for unexpected keyword arguments. -/
inductive LoadErr where
  | requiredMissing (field : String)
  | unexpectedKeyword (field : String)
  deriving DecidableEq, Repr

/-- The generated marshmallow schema's `load` (`__create_schema__` builds it
with `unknown="exclude"`): iterate the declared fields; a present key is
deserialized (identity for base fields); a missing key is skipped entirely on
a partial load, filled from `load_default` on a full load when a default is
set (`__set_name__` sets `required=False, load_default=default`), and raises
the required-field error otherwise.  Unknown input keys are excluded. -/
def schemaLoad (fs : List FieldSpec) (data : List (String × Val)) (part : Bool)
    (c : Nat) : Except LoadErr (List (String × Val) × Nat) :=
  match fs with
  | [] => .ok ([], c)
  | f :: rest =>
    match data.lookup f.name with
    | some v =>
      match schemaLoad rest data part c with
      | .ok (vs, c') => .ok ((f.name, v) :: vs, c')
      | .error e => .error e
    | none =>
      if part then schemaLoad rest data part c
      else
        match f.default with
        | some d =>
          match schemaLoad rest data part (applyDefault d c).2 with
          | .ok (vs, c') => .ok ((f.name, (applyDefault d c).1) :: vs, c')
          | .error e => .error e
        | none => .error (.requiredMissing f.name)

/-- The field-setting loop of `Document.__init__`: a field supplied in
`kwargs` is stored; an omitted field with a default gets the default (calling
it when it is a producer); an omitted field without a default is left unset. -/
def initFields (fs : List FieldSpec) (kwargs : List (String × Val)) (c : Nat) :
    List (String × Val) × Nat :=
  match fs with
  | [] => ([], c)
  | f :: rest =>
    match kwargs.lookup f.name with
    | some v =>
      let t := initFields rest kwargs c
      ((f.name, v) :: t.1, t.2)
    | none =>
      match f.default with
      | some d =>
        let t := initFields rest kwargs (applyDefault d c).2
        ((f.name, (applyDefault d c).1) :: t.1, t.2)
      | none => initFields rest kwargs c

/-- `Document.__init__`: keyword arguments not naming a declared field raise
`TypeError`; otherwise the instance `__dict__` is filled by `initFields`. -/
def docInit (fs : List FieldSpec) (kwargs : List (String × Val)) (c : Nat) :
    Except LoadErr (List (String × Val) × Nat) :=
  match kwargs.find? (fun kv => !(fs.any (fun f => f.name == kv.1))) with
  | some kv => .error (.unexpectedKeyword kv.1)
  | none => .ok (initFields fs kwargs c)

/-- `Document.load`: validate through the generated marshmallow schema (the
per-field `Field.load` of base fields is the identity), then construct the
instance with `cls(**loaded)`. -/
def docLoad (fs : List FieldSpec) (data : List (String × Val)) (part : Bool)
    (c : Nat) : Except LoadErr (List (String × Val) × Nat) :=
  match schemaLoad fs data part c with
  | .ok (validated, c') => docInit fs validated c'
  | .error e => .error e

/-- Counterexample to C6: a partial load of `{}` on a schema whose single
field has a (callable) default does NOT leave the field unset — the
construction step of `Document.load` fills it in, as the repository's own
`test_empty_field` asserts for `_id`. -/
theorem C6_default_policy_counterexample :
    docLoad [⟨"_id", some .factory⟩] [] true 0 = .ok ([("_id", .alloc 0)], 1) ∧
    ([("_id", Val.alloc 0)] : List (String × Val)).lookup "_id" = some (.alloc 0) :=
  ⟨rfl, rfl⟩

/-- C6 (amended): for a field with a default, the default is applied on full
loads, on partial loads, and on direct construction whenever the field is
unsupplied (never when it is supplied); a zero-argument callable default is
invoked anew on each use, so two successive constructions never share one
produced default value. -/
theorem C6_default_policy_amended :
    (∀ (fname : String) (d : DefaultSpec) (data : List (String × Val)) (c : Nat),
      data.lookup fname = none →
      docLoad [⟨fname, some d⟩] data false c =
        .ok ([(fname, (applyDefault d c).1)], (applyDefault d c).2)) ∧
    (∀ (fname : String) (d : DefaultSpec) (data : List (String × Val)) (c : Nat),
      data.lookup fname = none →
      docLoad [⟨fname, some d⟩] data true c =
        .ok ([(fname, (applyDefault d c).1)], (applyDefault d c).2)) ∧
    (∀ (fname : String) (d : DefaultSpec) (c : Nat),
      docInit [⟨fname, some d⟩] [] c =
        .ok ([(fname, (applyDefault d c).1)], (applyDefault d c).2)) ∧
    (∀ (fname : String) (d : DefaultSpec) (v : Val) (c : Nat),
      docInit [⟨fname, some d⟩] [(fname, v)] c = .ok ([(fname, v)], c)) ∧
    (∀ (fname : String) (c : Nat) (i₁ : List (String × Val)) (c₁ : Nat)
        (i₂ : List (String × Val)) (c₂ : Nat),
      docInit [⟨fname, some .factory⟩] [] c = .ok (i₁, c₁) →
      docInit [⟨fname, some .factory⟩] [] c₁ = .ok (i₂, c₂) →
      i₁.lookup fname ≠ i₂.lookup fname) := by
  refine ⟨?_, ?_, ?_, ?_, ?_⟩
  · intro fname d data c h
    simp [docLoad, schemaLoad, h, docInit, initFields, List.lookup]
  · intro fname d data c h
    simp [docLoad, schemaLoad, h, docInit, initFields, List.lookup]
  · intro fname d c
    simp [docInit, initFields, List.lookup]
  · intro fname d v c
    simp [docInit, initFields, List.lookup]
  · intro fname c i₁ c₁ i₂ c₂ h₁ h₂
    simp only [docInit, initFields, List.lookup, List.find?, applyDefault,
      Except.ok.injEq, Prod.mk.injEq] at h₁ h₂
    obtain ⟨hi₁, hc₁⟩ := h₁
    obtain ⟨hi₂, _⟩ := h₂
    subst hi₁ hi₂ hc₁
    simp [List.lookup]

/-- Witness for C6's amended theorem: a plain default on a full load, a
callable default on a partial load and on construction, a supplied value
overriding the default, and two constructions producing distinct objects. -/
theorem C6_default_policy_amended_witness :
    docLoad [⟨"status", some (.value (.vstr "active"))⟩] [] false 0 =
      .ok ([("status", .vstr "active")], 0) ∧
    docLoad [⟨"_id", some .factory⟩] [] true 3 = .ok ([("_id", .alloc 3)], 4) ∧
    docInit [⟨"extra", some .factory⟩] [] 0 = .ok ([("extra", .alloc 0)], 1) ∧
    docInit [⟨"status", some (.value (.vstr "active"))⟩] [("status", .vstr "off")] 0 =
      .ok ([("status", .vstr "off")], 0) ∧
    ([("extra", Val.alloc 0)] : List (String × Val)).lookup "extra" ≠
      ([("extra", Val.alloc 1)] : List (String × Val)).lookup "extra" := by
  obtain ⟨h1, h2, h3, h4, h5⟩ := C6_default_policy_amended
  exact ⟨h1 "status" (.value (.vstr "active")) [] 0 rfl,
    h2 "_id" .factory [] 3 rfl,
    h3 "extra" .factory 0,
    h4 "status" (.value (.vstr "active")) (.vstr "off") 0,
    h5 "extra" 0 [("extra", .alloc 0)] 1 [("extra", .alloc 1)] 2 rfl rfl⟩

/-- A key absent from every entry of an association list is not found. -/
theorem lookup_none_of_not_mem (k : String) :
    ∀ (l : List (String × Val)), (∀ kv ∈ l, kv.1 ≠ k) → l.lookup k = none := by
  intro l
  induction l with
  | nil => intro _; rfl
  | cons kv t ih =>
    intro h
    have hne : (k == kv.1) = false := by
      have := h kv (by simp)
      simp [bne, beq_eq_false_iff_ne]
      exact fun he => this he.symm
    simp only [List.lookup, hne]
    exact ih (fun kv' hkv' => h kv' (by simp [hkv']))

/-- Association-list lookup over an append searches the left list first. -/
theorem lookup_append (junk : List (String × Val)) (k : String) :
    ∀ (data : List (String × Val)),
      (data ++ junk).lookup k = ((data.lookup k).orElse (fun _ => junk.lookup k)) := by
  intro data
  induction data with
  | nil => rfl
  | cons kv t ih =>
    cases hbeq : k == kv.1
    · simp only [List.cons_append, List.lookup, hbeq]
      exact ih
    · simp only [List.cons_append, List.lookup, hbeq]
      rfl

/-- Input keys naming no declared field do not change the outcome of the
generated schema's `load` (they are excluded by `unknown="exclude"`). -/
theorem schemaLoad_append_junk (junk : List (String × Val)) (part : Bool) :
    ∀ (fs : List FieldSpec) (data : List (String × Val)) (c : Nat),
      (∀ kv ∈ junk, kv.1 ∉ fs.map (fun f => f.name)) →
      schemaLoad fs (data ++ junk) part c = schemaLoad fs data part c := by
  intro fs
  induction fs with
  | nil => intro data c _; rfl
  | cons f rest ih =>
    intro data c hj
    have hjk : junk.lookup f.name = none := by
      refine lookup_none_of_not_mem f.name junk (fun kv hkv => ?_)
      have := hj kv hkv
      simp only [List.map_cons, List.mem_cons, not_or] at this
      exact this.1
    have hrest : ∀ (d : List (String × Val)) (c' : Nat),
        schemaLoad rest (d ++ junk) part c' = schemaLoad rest d part c' := by
      intro d c'
      refine ih d c' (fun kv hkv => ?_)
      have := hj kv hkv
      simp only [List.map_cons, List.mem_cons, not_or] at this
      exact this.2
    have hl : (data ++ junk).lookup f.name = data.lookup f.name := by
      rw [lookup_append]
      cases h : data.lookup f.name <;> simp [Option.orElse, hjk]
    simp only [schemaLoad, hl]
    cases h : data.lookup f.name with
    | some v => simp [hrest data c]
    | none =>
      cases part with
      | true => simp [hrest data c]
      | false =>
        cases hd : f.default with
        | some d => simp [hrest data (applyDefault d c).2]
        | none => rfl

/-- Every entry stored by the `__init__` loop belongs to a declared field. -/
theorem initFields_keys :
    ∀ (fs : List FieldSpec) (kwargs : List (String × Val)) (c : Nat) (kv : String × Val),
      kv ∈ (initFields fs kwargs c).1 → kv.1 ∈ fs.map (fun f => f.name) := by
  intro fs
  induction fs with
  | nil => intro kw c kv h; simp [initFields] at h
  | cons f rest ih =>
    intro kw c kv h
    simp only [initFields] at h
    cases hl : kw.lookup f.name with
    | some v =>
      rw [hl] at h
      simp only [List.mem_cons] at h
      rcases h with h | h
      · simp [h]
      · simp only [List.map_cons, List.mem_cons]
        exact Or.inr (ih kw c kv h)
    | none =>
      rw [hl] at h
      cases hd : f.default with
      | some d =>
        rw [hd] at h
        simp only [List.mem_cons] at h
        rcases h with h | h
        · simp [h]
        · simp only [List.map_cons, List.mem_cons]
          exact Or.inr (ih kw (applyDefault d c).2 kv h)
      | none =>
        rw [hd] at h
        simp only [List.map_cons, List.mem_cons]
        exact Or.inr (ih kw c kv h)

/-- C10: unknown input keys are silently excluded by `Document.load` — a
successful load yields an instance whose every stored key names a declared
field, and appending input keys that name no declared field changes neither
the outcome nor the resulting instance (in particular it raises no error that
the same input without those keys would not raise). -/
theorem C10_unknown_keys_excluded (fs : List FieldSpec) (data junk : List (String × Val))
    (part : Bool) (c : Nat) :
    (∀ (inst : List (String × Val)) (c' : Nat),
      docLoad fs data part c = .ok (inst, c') →
      ∀ kv ∈ inst, kv.1 ∈ fs.map (fun f => f.name)) ∧
    ((∀ kv ∈ junk, kv.1 ∉ fs.map (fun f => f.name)) →
      docLoad fs (data ++ junk) part c = docLoad fs data part c) := by
  constructor
  · intro inst c' h kv hkv
    rw [docLoad] at h
    cases hs : schemaLoad fs data part c with
    | error e => rw [hs] at h; exact absurd h (by simp)
    | ok p =>
      rw [hs] at h
      simp only [docInit] at h
      cases hf : p.1.find? (fun kv => !(fs.any (fun f => f.name == kv.1))) with
      | some kv' => rw [hf] at h; exact absurd h (by simp)
      | none =>
        rw [hf] at h
        injection h with h'
        have hinst : inst = (initFields fs p.1 p.2).1 := by rw [h']
        exact initFields_keys fs p.1 p.2 kv (hinst ▸ hkv)
  · intro hj
    rw [docLoad, docLoad, schemaLoad_append_junk junk part fs data c hj]

/-- Witness for C10: loading `{name: "John", unknown: "value"}` partially into
a schema declaring only `name` succeeds, stores only the declared key, and
coincides with the load without the unknown key. -/
theorem C10_unknown_keys_excluded_witness :
    docLoad [⟨"name", none⟩] ([("name", .vstr "John")] ++ [("unknown", .vstr "value")])
        true 0 =
      docLoad [⟨"name", none⟩] [("name", .vstr "John")] true 0 ∧
    docLoad [⟨"name", none⟩] [("name", .vstr "John")] true 0 =
      .ok ([("name", .vstr "John")], 0) ∧
    ("name" : String) ∈ ([⟨"name", none⟩] : List FieldSpec).map (fun f => f.name) := by
  have h := C10_unknown_keys_excluded [⟨"name", none⟩] [("name", .vstr "John")]
    [("unknown", .vstr "value")] true 0
  refine ⟨h.2 (by decide), rfl, ?_⟩
  exact (h.1 [("name", .vstr "John")] 0 rfl ("name", .vstr "John") (by simp))

/-- Python ordered-dict update `{**a, **b}`: keys of `a` keep their positions
(values overridden by `b` where present), keys only in `b` are appended in
`b`'s order. -/
def dictUpdate (a b : List (String × String)) : List (String × String) :=
  (a.map (fun kv => (kv.1, (b.lookup kv.1).getD kv.2))) ++
    b.filter (fun kv => (a.lookup kv.1).isNone)

/-- The per-class state held by `DocumentMetaClass`: the class's own fields
(instantiated plus annotation-resolved, in declaration order), the parent
fields `__pfields__` fixed at class creation, the resolved `__fields__`, and
the `__fields_loaded__` latch.  A field value is identified by a marker
string naming its declaring class. -/
structure ClsState where
  cname : String
  own : List (String × String)
  pfields : List (String × String)
  fields : List (String × String)
  loaded : Bool
  deriving DecidableEq, Repr

/-- Find a class in the process-wide class environment. -/
def envGet (env : List ClsState) (n : String) : Option ClsState :=
  env.find? (fun c => c.cname == n)

/-- Replace a class's state in the environment. -/
def envSet (env : List ClsState) (n : String) (cs : ClsState) : List ClsState :=
  env.map (fun c => if c.cname == n then cs else c)

/-- `__lazy_init_fields__` of the sync `typedmongo/table.py`: if already
loaded return `cls.__fields__`; otherwise merge `__pfields__` with the class's
own fields into `cls.__fields__`, set the latch, and return `fields` — the
class's OWN fields only. -/
def lazyInitSync (env : List ClsState) (n : String) :
    List ClsState × List (String × String) :=
  match envGet env n with
  | none => (env, [])
  | some cs =>
    if cs.loaded then (env, cs.fields)
    else
      let merged := dictUpdate cs.pfields cs.own
      (envSet env n { cs with fields := merged, loaded := true }, cs.own)

/-- `__lazy_init_fields__` of `typedmongo/asyncio/table.py`: identical except
that it returns the fully merged `cls.__fields__`. -/
def lazyInitAsync (env : List ClsState) (n : String) :
    List ClsState × List (String × String) :=
  match envGet env n with
  | none => (env, [])
  | some cs =>
    if cs.loaded then (env, cs.fields)
    else
      let merged := dictUpdate cs.pfields cs.own
      (envSet env n { cs with fields := merged, loaded := true }, merged)

/-- `DocumentMetaClass.__new__`: run `__lazy_init_fields__` on every base in
order (threading the shared environment), fold the returned tables in
reversed order with `{**_item, **_initial}` into `__pfields__`, and register
the new class unloaded. -/
def newClass (lazyInit : List ClsState → String → List ClsState × List (String × String))
    (env : List ClsState) (n : String) (bases : List String)
    (own : List (String × String)) : List ClsState :=
  let step := bases.foldl
    (fun (acc : List ClsState × List (List (String × String))) b =>
      let r := lazyInit acc.1 b
      (r.1, acc.2 ++ [r.2]))
    (env, [])
  let pf := step.2.reverse.foldl (fun acc item => dictUpdate item acc) []
  step.1 ++ [⟨n, own, pf, [], false⟩]

/-- A three-level chain `A`, `B(A)`, `C(B)` declared consecutively with no
resolution trigger in between, under the sync metaclass. -/
def chainEnvSync : List ClsState :=
  newClass lazyInitSync
    (newClass lazyInitSync
      (newClass lazyInitSync [] "A" [] [("a", "A.a")])
      "B" ["A"] [("b", "B.b")])
    "C" ["B"] [("c", "C.c")]

/-- The same chain under the asyncio metaclass. -/
def chainEnvAsync : List ClsState :=
  newClass lazyInitAsync
    (newClass lazyInitAsync
      (newClass lazyInitAsync [] "A" [] [("a", "A.a")])
      "B" ["A"] [("b", "B.b")])
    "C" ["B"] [("c", "C.c")]

/-- `C.__fields__` after triggering `C.__lazy_init_fields__()`, sync variant. -/
def resolvedCSync : List (String × String) :=
  match envGet (lazyInitSync chainEnvSync "C").1 "C" with
  | some cs => cs.fields
  | none => []

/-- `C.__fields__` after triggering `C.__lazy_init_fields__()`, asyncio
variant. -/
def resolvedCAsync : List (String × String) :=
  match envGet (lazyInitAsync chainEnvAsync "C").1 "C" with
  | some cs => cs.fields
  | none => []

/-- C7 fails on the sync code: in the chain `A` → `B(A)` → `C(B)` declared
consecutively, `B` is resolved only while `C` is being created, so the sync
`__lazy_init_fields__` hands `C` only `B`'s own fields and the grandparent
field `a` is missing from `C.__fields__`; the asyncio variant — from which
the sync module is mechanically generated — returns the full merged table and
includes `a`, preserving declaration order with nearest-definition-wins. -/
theorem C7_inheritance_merge_depth :
    resolvedCSync.lookup "a" = none ∧
    resolvedCSync = [("b", "B.b"), ("c", "C.c")] ∧
    resolvedCAsync.lookup "a" = some "A.a" ∧
    resolvedCAsync = [("a", "A.a"), ("b", "B.b"), ("c", "C.c")] :=
  ⟨rfl, rfl, rfl, rfl⟩

/-- A class-object attribute namespace as `type.__getattribute__` sees it:
the class name, the Field-valued entries of its `__dict__` (annotation-only
declarations are absent until `__lazy_init_fields__` runs `setattr`), and the
`__fields_loaded__` latch. -/
structure ClassNS where
  cname : String
  attrs : List (String × String)
  fieldsLoaded : Bool
  deriving DecidableEq, Repr

/-- Attribute lookup along the method resolution order. -/
def mroLookup : List ClassNS → String → Option String
  | [], _ => none
  | c :: rest, attr =>
    match c.attrs.lookup attr with
    | some v => some v
    | none => mroLookup rest attr

/-- Class attribute access under the sync `DocumentMetaClass`, which defines
no `__getattribute__`: a miss raises the generic `AttributeError`. -/
def metaGetattrSync (cls : ClassNS) (mroRest : List ClassNS) (attr : String) :
    Except PyErr String :=
  match mroLookup (cls :: mroRest) attr with
  | some v => .ok v
  | none => .error (.attributeError cls.cname attr)

/-- Class attribute access under the asyncio `DocumentMetaClass.__getattribute__`:
a miss on a class whose fields are not loaded raises the
"Please initialize the Document ... before using it." `AttributeError`;
otherwise the original error is re-raised. -/
def metaGetattrAsync (cls : ClassNS) (mroRest : List ClassNS) (attr : String) :
    Except PyErr String :=
  match mroLookup (cls :: mroRest) attr with
  | some v => .ok v
  | none =>
    if cls.fieldsLoaded then .error (.attributeError cls.cname attr)
    else .error (.initializeFirst cls.cname)

/-- The `NotInitialized` class of `tests/test_table.py`: one annotation-only
field `name`, never resolved, so its class dict holds no field attribute. -/
def notInitializedNS : ClassNS := ⟨"NotInitialized", [], false⟩

/-- The resolved `Document` base class. -/
def documentNS : ClassNS := ⟨"Document", [], true⟩

/-- C8 fails on the sync code: accessing the annotation-only field `name` on
the unresolved `NotInitialized` class raises the initialize-first
`AttributeError` under the asyncio metaclass, but the sync metaclass — stale
with respect to the asyncio module it is generated from, and contradicting
the sync test suite's `test_not_initialized` — raises only the generic
missing-attribute error; once the class is loaded the asyncio guard re-raises
the generic error instead. -/
theorem C8_unresolved_guard :
    metaGetattrAsync notInitializedNS [documentNS] "name" =
      .error (.initializeFirst "NotInitialized") ∧
    metaGetattrSync notInitializedNS [documentNS] "name" =
      .error (.attributeError "NotInitialized" "name") ∧
    metaGetattrSync notInitializedNS [documentNS] "name" ≠
      .error (.initializeFirst "NotInitialized") ∧
    metaGetattrAsync ⟨"NotInitialized", [], true⟩ [documentNS] "name" =
      .error (.attributeError "NotInitialized" "name") :=
  by
  refine ⟨rfl, rfl, ?_, rfl⟩
  intro h
  cases Except.error.inj h

/-- An instance of a concrete schema: its class name and its `__dict__`. -/
structure DocInstance where
  cls : String
  dict : List (String × Val)
  deriving DecidableEq, Repr

/-- `Document.__eq__` for two instances of the same concrete schema: the
class check, then comparison of `{key: self.__dict__.get(key, None) for key
in self.__fields__}` on both sides — an unset field is read back as `None`. -/
def documentEq (fieldNames : List String) (a b : DocInstance) : Bool :=
  decide (b.cls = a.cls) &&
    fieldNames.all (fun k =>
      decide ((a.dict.lookup k).getD .vnone = (b.dict.lookup k).getD .vnone))

/-- Counterexample to C9: an instance that never set `name` compares equal to
an instance that explicitly set `name = None` — `__eq__` reads missing fields
back as `None`, so the two are NOT distinguished. -/
theorem C9_missing_vs_none_counterexample :
    documentEq ["name"] ⟨"User", []⟩ ⟨"User", [("name", Val.vnone)]⟩ = true := rfl

/-- C9 (amended): two instances of the same concrete schema are equal exactly
when every resolved field agrees after reading a missing field as `None`;
missing and explicitly-`None` therefore coincide, and defaults are not
applied during the comparison. -/
theorem C9_instance_equality_amended (fieldNames : List String) (a b : DocInstance) :
    documentEq fieldNames a b = true ↔
      b.cls = a.cls ∧
        ∀ k ∈ fieldNames,
          (a.dict.lookup k).getD .vnone = (b.dict.lookup k).getD .vnone := by
  simp [documentEq, List.all_eq_true]

/-- Witness for C9's amended theorem at concrete instances. -/
theorem C9_instance_equality_amended_witness :
    documentEq ["name", "age"] ⟨"User", [("name", .vstr "Aber"), ("age", .vint 18)]⟩
      ⟨"User", [("age", .vint 18), ("name", .vstr "Aber")]⟩ = true := by
  exact (C9_instance_equality_amended ["name", "age"]
    ⟨"User", [("name", .vstr "Aber"), ("age", .vint 18)]⟩
    ⟨"User", [("age", .vint 18), ("name", .vstr "Aber")]⟩).mpr
    ⟨rfl, by intro k hk; fin_cases hk <;> rfl⟩

end Typedmongo
